import Mathlib

/-!
# c25k-pebble: the activity timing controller

A shallow embedding of `src/c/activity.c`.

* `time_t` values of the controller (`elapsed`, `started_at`, clock readings) are
  integers; the clock `time(NULL)` is an explicit argument `now` of every
  function that reads it.
* `calculate_angle` is embedded with its 32-bit product made explicit through
  `wrap32` (two's complement wrap-around of the `long` multiplication).
* Host calls that leave a trace (`vibes_double_pulse`, `window_stack_push`,
  `layer_mark_dirty`, the owner's `on_back`) are counted in fields of the
  session record; timer handles are recorded as "non-NULL" booleans.
* `programme.c` is not part of the sources; the programme queries are modelled
  from the specification and marked as such.
-/

namespace C25k

/-! ## Programme interface (`programme.h`) -/

/-- The phase tags that `state_colour` switches over. -/
inductive ProgrammeState
  | PROGRAMME_STATE_WARM_UP
  | PROGRAMME_STATE_WALK
  | PROGRAMME_STATE_RUN
  | PROGRAMME_STATE_WARM_DOWN
  deriving DecidableEq, Repr

/-- Modelled from the spec: a phase of a programme, "each with a state tag and a
duration" (the type is declared in the absent `programme.h`). -/
structure Phase where
  state : ProgrammeState
  duration : Int
  deriving DecidableEq, Repr

/-- Modelled from the spec: a programme is "an immutable ordered sequence of
phases" (the type is declared in the absent `programme.h`). -/
abbrev Programme := List Phase

/-- Modelled from the spec: `programme_duration` of the absent `programme.c`,
"Total duration = sum of phase durations". -/
def programme_duration : Programme → Int
  | [] => 0
  | ph :: rest => ph.duration + programme_duration rest

/-- Modelled from the spec: `programme_phase_elapsed_at` of the absent
`programme.c`, the "phase-relative elapsed" query. The phase at offset `t` is the
first one whose end lies after `t` (at 32 s in [30 s, 60 s, 120 s] the second
phase, 2 s in). Past the last phase there is no phase and the query reads 0. -/
def programme_phase_elapsed_at : Programme → Int → Int
  | [], _ => 0
  | ph :: rest, t =>
    if t < ph.duration then t else programme_phase_elapsed_at rest (t - ph.duration)

/-- Modelled from the spec: `programme_phase_remaining_at` of the absent
`programme.c`, the "phase-relative remaining" query: the time left until the end
of the phase at offset `t`. Past the last phase the query reads 0. -/
def programme_phase_remaining_at : Programme → Int → Int
  | [], _ => 0
  | ph :: rest, t =>
    if t < ph.duration then ph.duration - t
    else programme_phase_remaining_at rest (t - ph.duration)

/-- Modelled from the spec: `programme_state_at` of the absent `programme.c`, the
"phase lookup at an elapsed offset". Past the last phase the lookup falls back
to the warm-down tag. -/
def programme_state_at : Programme → Int → ProgrammeState
  | [], _ => .PROGRAMME_STATE_WARM_DOWN
  | ph :: rest, t =>
    if t < ph.duration then ph.state else programme_state_at rest (t - ph.duration)

/-- Modelled from the spec: `programme_state_string` of the absent `programme.c`,
"the phase's display name". -/
def programme_state_string : ProgrammeState → String
  | .PROGRAMME_STATE_WARM_UP => "Warm-up"
  | .PROGRAMME_STATE_WALK => "Walk"
  | .PROGRAMME_STATE_RUN => "Run"
  | .PROGRAMME_STATE_WARM_DOWN => "Warm-down"

/-- Helper of `programme_iterate_states`: the iteration from start offset `start`. -/
def programme_iterate_states_from {σ : Type} (start : Int)
    (cb : Int → Int → ProgrammeState → σ → σ) : Programme → σ → σ
  | [], userdata => userdata
  | ph :: rest, userdata =>
    programme_iterate_states_from (start + ph.duration) cb rest
      (cb start ph.duration ph.state userdata)

/-- Modelled from the spec: `programme_iterate_states` of the absent
`programme.c`, "an iteration callback over (start-offset, duration, state)
triples", in programme order. -/
def programme_iterate_states {σ : Type} (programme : Programme)
    (cb : Int → Int → ProgrammeState → σ → σ) (userdata : σ) : σ :=
  programme_iterate_states_from 0 cb programme userdata

/-! ### Phase positions, used to state the navigation claims -/

/-- Index of the phase that the programme queries select at offset `t`. -/
def phase_index_at : Programme → Int → Nat
  | [], _ => 0
  | ph :: rest, t => if t < ph.duration then 0 else phase_index_at rest (t - ph.duration) + 1

/-- Start offset of the phase with index `i`: the durations before it, summed. -/
def phase_start (programme : Programme) (i : Nat) : Int :=
  programme_duration (programme.take i)

/-- The programme of the specification's scenario: Warm-up 30 s, Walk 60 s, Run 120 s. -/
def scenario : Programme :=
  [⟨.PROGRAMME_STATE_WARM_UP, 30⟩, ⟨.PROGRAMME_STATE_WALK, 60⟩, ⟨.PROGRAMME_STATE_RUN, 120⟩]

/-! ## Host constants (`pebble.h`) -/

/-- The Pebble SDK constant `TRIG_MAX_RATIO` (`0xffff`). -/
def TRIG_MAX_RATIO : Int := 0xffff

/-- The Pebble SDK constant `TRIG_MAX_ANGLE` (`0x10000`), the angle of a full circle. -/
def TRIG_MAX_ANGLE : Int := 0x10000

/-- The Pebble SDK conversion `DEG_TO_TRIGANGLE(angle)`, `angle * TRIG_MAX_ANGLE / 360`. -/
def DEG_TO_TRIGANGLE (angle : Int) : Int := (angle * TRIG_MAX_ANGLE).tdiv 360

/-- Two's complement wrap-around of a value into the 32-bit signed range. -/
def wrap32 (x : Int) : Int := (x + 2 ^ 31) % 2 ^ 32 - 2 ^ 31

/-- Conversion of a value to `uint32_t`. -/
def toU32 (x : Int) : Int := x % 2 ^ 32

/-! ## `activity.c` -/

/-- The constant `MARKER_DEGREES`. -/
def MARKER_DEGREES : Int := 2

/-- The constant `TIMER_TIMEOUT_MS`, the tick cadence. -/
def TIMER_TIMEOUT_MS : Nat := 500

/-- The run states of a session (`ActivityState`). -/
inductive ActivityState
  | ACTIVITY_ACTIVE
  | ACTIVITY_PAUSED
  | ACTIVITY_COMPLETE
  deriving DecidableEq, Repr

/-- The session record `struct ActivityWindow`. `timer` and `action_bar_timer`
say whether the handle is non-NULL, `reward` whether a reward window has been
created. The last four fields count calls into the host: `vibes_double_pulse`,
`window_stack_push` of a reward window, `layer_mark_dirty`, and the owner's
`on_back` callback. -/
structure ActivityWindow where
  elapsed : Int
  started_at : Int
  state : ActivityState
  timer : Bool
  action_bar_timer : Bool
  programme : Programme
  reward : Bool
  phase_buffer : String
  time_remaining_buffer : String
  vibes : Nat
  pushed : Nat
  dirty : Nat
  back_calls : Nat
  deriving DecidableEq, Repr

/-- The function `calculate_angle`: `(TRIG_MAX_RATIO * at) / total_duration`, the
product taken on the 32-bit `long` and the division truncating. -/
def calculate_angle (t total_duration : Int) : Int :=
  (wrap32 ( TRIG_MAX_RATIO * t)).tdiv total_duration

/-! ### `printf` conversions used by `update_text_labels` -/

/-- The character of a decimal digit. -/
def digit_char (d : Nat) : Char := Char.ofNat (48 + d)

/-- Decimal digits of `n`, most significant first; `fuel` bounds the recursion. -/
def decimal_digits : Nat → Nat → List Char
  | 0, _ => []
  | fuel + 1, n =>
    if n < 10 then [digit_char n]
    else decimal_digits fuel (n / 10) ++ [digit_char (n % 10)]

/-- Decimal numeral of a natural number. -/
def decimal (n : Nat) : List Char := decimal_digits (n + 1) n

/-- The conversion `%<width>ld` (`zero = false`) or `%0<width>ld` (`zero = true`):
sign, decimal digits, padded on the left to `width` characters. -/
def fmt_ld (width : Nat) (zero : Bool) (v : Int) : List Char :=
  let body := decimal v.natAbs
  let sign : List Char := if v < 0 then ['-'] else []
  let pad := width - (sign.length + body.length)
  if zero then sign ++ List.replicate pad '0' ++ body
  else List.replicate pad ' ' ++ sign ++ body

/-- The call `snprintf(buf, size, ...)`: at most `size - 1` characters are stored. -/
def snprintf (size : Nat) (out : List Char) : String :=
  String.mk (out.take (size - 1))

/-- The call `strncpy(buf, src, size)` followed by `buf[size - 1] = 0`. -/
def strncpy_terminated (size : Nat) (src : String) : String :=
  String.mk (src.data.take (size - 1))

/-- The body of `update_text_labels` once the two programme queries have been
read: `phase_remaining` is the value of `programme_phase_remaining_at` and
`name` the string of `programme_state_string`. -/
def update_text_labels_with (phase_remaining : Int) (name : String)
    (activity : ActivityWindow) : ActivityWindow :=
  if activity.state = .ACTIVITY_ACTIVE then
    let activity :=
      if phase_remaining.tdiv 60 > 9 then
        { activity with
          time_remaining_buffer := snprintf 24
            (fmt_ld 2 false (phase_remaining.tdiv 60) ++ [':'] ++
              fmt_ld 2 true (phase_remaining.tmod 60)) }
      else
        let activity := { activity with
          time_remaining_buffer := snprintf 24
            (fmt_ld 1 false (phase_remaining.tdiv 60) ++ [':'] ++
              fmt_ld 2 true (phase_remaining.tmod 60)) }
        if phase_remaining = 0 then { activity with vibes := activity.vibes + 1 }
        else activity
    { activity with phase_buffer := strncpy_terminated 10 name }
  else activity

/-- The function `update_text_labels`: both programme queries are read at the
session's `elapsed`. -/
def update_text_labels (activity : ActivityWindow) : ActivityWindow :=
  update_text_labels_with
    (programme_phase_remaining_at activity.programme activity.elapsed)
    (programme_state_string (programme_state_at activity.programme activity.elapsed))
    activity

/-- The function `activity_complete`: create the reward window and push it. -/
def activity_complete (activity : ActivityWindow) : ActivityWindow :=
  { activity with reward := true, pushed := activity.pushed + 1 }

/-- The function `activity_window_set_active`; `now` is the reading of
`time(NULL)`. The action-bar icon calls are not recorded. -/
def activity_window_set_active (now : Int) (activity : ActivityWindow) (active : Bool) :
    ActivityWindow :=
  if active then
    { activity with
      state := .ACTIVITY_ACTIVE
      started_at := now - activity.elapsed
      timer := true }
  else
    { activity with
      state := .ACTIVITY_PAUSED
      timer := false
      action_bar_timer := false }

/-- The timer callback `on_tick`; `now` is the reading of `time(NULL)`. -/
def on_tick (now : Int) (activity : ActivityWindow) : ActivityWindow :=
  let activity := { activity with timer := false }
  let activity := { activity with elapsed := now - activity.started_at }
  let activity :=
    if activity.elapsed ≥ programme_duration activity.programme then
      activity_complete (activity_window_set_active now activity false)
    else
      { activity with timer := true }
  update_text_labels { activity with dirty := activity.dirty + 1 }

/-- The window handler `on_appear`. -/
def on_appear (now : Int) (activity : ActivityWindow) : ActivityWindow :=
  update_text_labels (activity_window_set_active now { activity with elapsed := 0 } true)

/-- The window handler `on_disappear`. -/
def on_disappear (now : Int) (activity : ActivityWindow) : ActivityWindow :=
  activity_window_set_active now activity false

/-- The click handler `on_button_back`: the owner's `on_back` callback is called. -/
def on_button_back (activity : ActivityWindow) : ActivityWindow :=
  { activity with back_calls := activity.back_calls + 1 }

/-- The click handler `on_button_select`. -/
def on_button_select (now : Int) (activity : ActivityWindow) : ActivityWindow :=
  let activity := activity_window_set_active now activity
    (if activity.state = .ACTIVITY_PAUSED then true else false)
  update_text_labels { activity with dirty := activity.dirty + 1 }

/-- The click handler `on_button_up` (skip forward). -/
def on_button_up (activity : ActivityWindow) : ActivityWindow :=
  if activity.state = .ACTIVITY_ACTIVE then
    let phase_remaining := programme_phase_remaining_at activity.programme activity.elapsed
    if activity.elapsed + phase_remaining ≥ programme_duration activity.programme then
      activity_complete activity
    else
      { activity with started_at := activity.started_at - phase_remaining }
  else activity

/-- The click handler `on_button_down` (skip backward); `now` is the reading of
`time(NULL)`. -/
def on_button_down (now : Int) (activity : ActivityWindow) : ActivityWindow :=
  if activity.state = .ACTIVITY_ACTIVE then
    let phase_elapsed := programme_phase_elapsed_at activity.programme activity.elapsed
    if phase_elapsed < 5 then
      if activity.elapsed - activity.started_at < 5 then
        { activity with started_at := now }
      else
        let activity := { activity with
          started_at := activity.started_at +
            (programme_phase_elapsed_at activity.programme (activity.elapsed - 5) + 5) }
        { activity with started_at := activity.started_at + (phase_elapsed + 1) }
    else
      { activity with started_at := activity.started_at + (phase_elapsed + 1) }
  else activity

/-- The constructor `activity_window_create`: a fresh session, Paused, no programme bound. The
fields the C code leaves unset (`started_at`, the timer handles) start at 0 and
NULL. -/
def activity_window_create : ActivityWindow :=
  { elapsed := 0, started_at := 0, state := .ACTIVITY_PAUSED, timer := false,
    action_bar_timer := false, programme := [], reward := false,
    phase_buffer := "", time_remaining_buffer := "",
    vibes := 0, pushed := 0, dirty := 0, back_calls := 0 }

/-- The function `activity_window_set_programme`. -/
def activity_window_set_programme (activity : ActivityWindow) (programme : Programme) :
    ActivityWindow :=
  { activity with programme := programme }

/-- An Active session of `programme` at clock reading `now` whose elapsed time is
`elapsed`: what `activity_window_set_active (true)` followed by ticks produces. -/
def running (programme : Programme) (now elapsed : Int) : ActivityWindow :=
  { activity_window_create with
    programme := programme, elapsed := elapsed, started_at := now - elapsed,
    state := .ACTIVITY_ACTIVE, timer := true }

/-! ### Rendering (`on_update_proc`) -/

/-- The colours `on_update_proc` and `state_colour` use. -/
inductive GColor
  | GColorLightGray
  | GColorWhite
  | GColorJaegerGreen
  | GColorBlack
  | GColorRed
  deriving DecidableEq, Repr

/-- The constant `RADIAL_WIDTH`, by display shape (`PBL_ROUND`). -/
def RADIAL_WIDTH (round : Bool) : Int := if round then 32 else 16

/-- The constant `MARKER_SIZE`, by display shape (`PBL_ROUND`). -/
def MARKER_SIZE (round : Bool) : Int := if round then 32 else 16

/-- The function `state_colour`; `colour` says whether the display has colour (`COLOR_FALLBACK`). -/
def state_colour (colour : Bool) : ProgrammeState → GColor
  | .PROGRAMME_STATE_WARM_UP => .GColorLightGray
  | .PROGRAMME_STATE_WARM_DOWN => .GColorLightGray
  | .PROGRAMME_STATE_WALK => .GColorWhite
  | .PROGRAMME_STATE_RUN => if colour then .GColorJaegerGreen else .GColorBlack

/-- One call of `graphics_fill_radial`: fill colour, inset thickness, and the two
angles (`int32_t` arguments). -/
structure RadialFill where
  colour : GColor
  inset_thickness : Int
  angle_start : Int
  angle_end : Int
  deriving DecidableEq, Repr

/-- The iteration callback `on_state`: one sector per phase. -/
def on_state (round colour : Bool) (total_duration : Int)
    (t phase_duration : Int) (state : ProgrammeState) (fills : List RadialFill) :
    List RadialFill :=
  fills ++ [⟨state_colour colour state, RADIAL_WIDTH round,
    calculate_angle t total_duration, calculate_angle (t + phase_duration) total_duration⟩]

/-- The layer callback `on_update_proc`: the radial fills it issues, in order
(phase sectors, end cap, start cap, progress marker). The bounds and the two
stroked circles carry no angle and are not recorded. -/
def on_update_proc (round colour : Bool) (activity : ActivityWindow) : List RadialFill :=
  let marker_angle_delta := toU32 (DEG_TO_TRIGANGLE MARKER_DEGREES)
  let total_duration := programme_duration activity.programme
  let fills := programme_iterate_states activity.programme
    (on_state round colour total_duration) []
  let fills := fills ++ [⟨.GColorJaegerGreen, MARKER_SIZE round,
    wrap32 (toU32 ( TRIG_MAX_ANGLE - marker_angle_delta)), TRIG_MAX_ANGLE⟩]
  let fills := fills ++ [⟨.GColorJaegerGreen, MARKER_SIZE round,
    DEG_TO_TRIGANGLE 0, DEG_TO_TRIGANGLE 2⟩]
  let marker_angle := toU32 (calculate_angle activity.elapsed total_duration)
  fills ++ [⟨.GColorRed, MARKER_SIZE round, 0,
    wrap32 (toU32 (marker_angle + marker_angle_delta / 2))⟩]

/-! ### Sequences of host events -/

/-- The programme invariant of the data model: the sequence is non-empty and
every duration is positive. -/
def well_formed (programme : Programme) : Prop :=
  programme ≠ [] ∧ ∀ ph ∈ programme, 0 < ph.duration

instance (programme : Programme) : Decidable (well_formed programme) := by
  unfold well_formed
  exact inferInstance

/-- A run of label refreshes: `update_text_labels` called once per reading of
phase-remaining, in order. -/
def refresh_readings (name : String) (readings : List Int) (activity : ActivityWindow) :
    ActivityWindow :=
  readings.foldl (fun a r => update_text_labels_with r name a) activity

/-- The events the host delivers to a session, with the clock reading at
delivery where the handler reads the clock. -/
inductive Event
  | tick (now : Int)
  | select (now : Int)
  | up
  | down (now : Int)
  | back
  deriving DecidableEq, Repr

/-- Delivery of one event to its handler. -/
def deliver (activity : ActivityWindow) : Event → ActivityWindow
  | .tick now => on_tick now activity
  | .select now => on_button_select now activity
  | .up => on_button_up activity
  | .down now => on_button_down now activity
  | .back => on_button_back activity

/-- Delivery of a sequence of events, in order. -/
def deliver_all (activity : ActivityWindow) (events : List Event) : ActivityWindow :=
  events.foldl deliver activity

/-- Whether an event is an up press, a down press, or a tick at a clock reading
not before `now`. -/
def later_skip_or_tick (now : Int) : Event → Bool
  | .tick n => decide (now ≤ n)
  | .up => true
  | .down _ => true
  | .select _ => false
  | .back => false

/-! ## Facts about the programme queries -/

theorem phase_start_zero (p : Programme) : phase_start p 0 = 0 := by
  simp [phase_start, programme_duration]

theorem phase_start_cons_succ (ph : Phase) (rest : Programme) (i : Nat) :
    phase_start (ph :: rest) (i + 1) = ph.duration + phase_start rest i := by
  simp [phase_start, programme_duration]

theorem programme_phase_remaining_at_nonneg (p : Programme) :
    ∀ t : Int, 0 ≤ programme_phase_remaining_at p t := by
  induction p with
  | nil => intro t; simp [programme_phase_remaining_at]
  | cons ph rest ih =>
    intro t
    unfold programme_phase_remaining_at
    split
    · omega
    · exact ih _

/-- Inside a phase, the offset minus the phase-relative elapsed is the start
offset of that phase. -/
theorem sub_phase_elapsed_eq_phase_start (p : Programme) :
    ∀ t : Int, programme_phase_elapsed_at p t ≠ 0 →
      t - programme_phase_elapsed_at p t = phase_start p (phase_index_at p t) := by
  induction p with
  | nil => intro t h; simp [programme_phase_elapsed_at] at h
  | cons ph rest ih =>
    intro t h
    unfold programme_phase_elapsed_at at h ⊢
    unfold phase_index_at
    split
    · simp [phase_start_zero]
    · rename_i hlt
      rw [if_neg hlt] at h
      rw [phase_start_cons_succ, ← ih _ h]
      omega

/-- The offset plus the phase-relative remaining time is the start offset of the
following phase, and that offset lies in the following phase, zero seconds in. -/
theorem add_phase_remaining (p : Programme) (hpos : ∀ ph ∈ p, 0 < ph.duration) :
    ∀ t : Int, (0 ≤ t ∨ p ≠ []) →
      t + programme_phase_remaining_at p t < programme_duration p →
      t + programme_phase_remaining_at p t = phase_start p (phase_index_at p t + 1) ∧
      programme_phase_elapsed_at p (t + programme_phase_remaining_at p t) = 0 ∧
      phase_index_at p (t + programme_phase_remaining_at p t) = phase_index_at p t + 1 := by
  induction p with
  | nil =>
    intro t h0 hlt
    simp [programme_phase_remaining_at, programme_duration] at hlt
    rcases h0 with h0 | h0
    · omega
    · exact absurd rfl h0
  | cons ph rest ih =>
    intro t _ hlt
    have hrest : ∀ q ∈ rest, 0 < q.duration := fun q hq => hpos q (List.mem_cons_of_mem _ hq)
    have hph : 0 < ph.duration := hpos ph (List.mem_cons_self _ _)
    by_cases hin : t < ph.duration
    · have hr : programme_phase_remaining_at (ph :: rest) t = ph.duration - t := by
        simp [programme_phase_remaining_at, hin]
      have hi : phase_index_at (ph :: rest) t = 0 := by simp [phase_index_at, hin]
      rw [hr] at hlt ⊢
      rw [hi]
      have hsum : t + (ph.duration - t) = ph.duration := by omega
      rw [hsum] at hlt ⊢
      cases rest with
      | nil => simp [programme_duration] at hlt
      | cons ph2 rest2 =>
        have h2 : 0 < ph2.duration := hrest ph2 (List.mem_cons_self _ _)
        refine ⟨?_, ?_, ?_⟩
        · simp [phase_start, programme_duration]
        · simp [programme_phase_elapsed_at, h2]
        · simp [phase_index_at, h2]
    · have hr : programme_phase_remaining_at (ph :: rest) t =
          programme_phase_remaining_at rest (t - ph.duration) := by
        simp [programme_phase_remaining_at, hin]
      have hi : phase_index_at (ph :: rest) t = phase_index_at rest (t - ph.duration) + 1 := by
        simp [phase_index_at, hin]
      have hnn := programme_phase_remaining_at_nonneg rest (t - ph.duration)
      rw [hr] at hlt ⊢
      rw [hi]
      have hlt2 : (t - ph.duration) + programme_phase_remaining_at rest (t - ph.duration)
          < programme_duration rest := by
        simp only [programme_duration] at hlt
        omega
      obtain ⟨e1, e2, e3⟩ := ih hrest (t - ph.duration) (Or.inl (by omega)) hlt2
      have hnot : ¬ (t + programme_phase_remaining_at rest (t - ph.duration) < ph.duration) := by
        omega
      have hshift : t + programme_phase_remaining_at rest (t - ph.duration) - ph.duration =
          (t - ph.duration) + programme_phase_remaining_at rest (t - ph.duration) := by omega
      refine ⟨?_, ?_, ?_⟩
      · rw [phase_start_cons_succ, ← e1]; omega
      · have hstep : programme_phase_elapsed_at (ph :: rest)
            (t + programme_phase_remaining_at rest (t - ph.duration)) =
            programme_phase_elapsed_at rest
              (t + programme_phase_remaining_at rest (t - ph.duration) - ph.duration) := by
          simp [programme_phase_elapsed_at, hnot]
        rw [hstep, hshift]; exact e2
      · have hstep : phase_index_at (ph :: rest)
            (t + programme_phase_remaining_at rest (t - ph.duration)) =
            phase_index_at rest
              (t + programme_phase_remaining_at rest (t - ph.duration) - ph.duration) + 1 := by
          simp [phase_index_at, hnot]
        rw [hstep, hshift, e3]



/-- Inside a phase, the start offset of the phase is non-negative, lies in the
same phase and is zero seconds into it. -/
theorem phase_start_of_elapsed (p : Programme) (hpos : ∀ ph ∈ p, 0 < ph.duration) :
    ∀ t : Int, programme_phase_elapsed_at p t ≠ 0 →
      0 ≤ t - programme_phase_elapsed_at p t ∧
      phase_index_at p (t - programme_phase_elapsed_at p t) = phase_index_at p t ∧
      programme_phase_elapsed_at p (t - programme_phase_elapsed_at p t) = 0 := by
  induction p with
  | nil => intro t h; simp [programme_phase_elapsed_at] at h
  | cons ph rest ih =>
    intro t h
    have hrest : ∀ q ∈ rest, 0 < q.duration := fun q hq => hpos q (List.mem_cons_of_mem _ hq)
    have hph : 0 < ph.duration := hpos ph (List.mem_cons_self _ _)
    by_cases hin : t < ph.duration
    · have hr : programme_phase_elapsed_at (ph :: rest) t = t := by
        simp [programme_phase_elapsed_at, hin]
      rw [hr]
      simp [phase_index_at, programme_phase_elapsed_at, hin, hph]
    · have hr : programme_phase_elapsed_at (ph :: rest) t =
          programme_phase_elapsed_at rest (t - ph.duration) := by
        simp [programme_phase_elapsed_at, hin]
      rw [hr] at h ⊢
      obtain ⟨e1, e2, e3⟩ := ih hrest (t - ph.duration) h
      have hnot : ¬ (t - programme_phase_elapsed_at rest (t - ph.duration) < ph.duration) := by
        omega
      have hshift : t - programme_phase_elapsed_at rest (t - ph.duration) - ph.duration =
          (t - ph.duration) - programme_phase_elapsed_at rest (t - ph.duration) := by omega
      refine ⟨by omega, ?_, ?_⟩
      · have hstep : phase_index_at (ph :: rest)
            (t - programme_phase_elapsed_at rest (t - ph.duration)) =
            phase_index_at rest
              (t - programme_phase_elapsed_at rest (t - ph.duration) - ph.duration) + 1 := by
          simp [phase_index_at, hnot]
        have hidx : phase_index_at (ph :: rest) t =
            phase_index_at rest (t - ph.duration) + 1 := by
          simp [phase_index_at, hin]
        rw [hstep, hshift, e2, hidx]
      · have hstep : programme_phase_elapsed_at (ph :: rest)
            (t - programme_phase_elapsed_at rest (t - ph.duration)) =
            programme_phase_elapsed_at rest
              (t - programme_phase_elapsed_at rest (t - ph.duration) - ph.duration) := by
          simp [programme_phase_elapsed_at, hnot]
        rw [hstep, hshift]; exact e3

/-! ## Facts about the handlers -/

/-- A label refresh touches only the two text buffers and the pulse count. -/
theorem update_text_labels_with_frame (r : Int) (name : String) (a : ActivityWindow) :
    (update_text_labels_with r name a).elapsed = a.elapsed ∧
    (update_text_labels_with r name a).started_at = a.started_at ∧
    (update_text_labels_with r name a).state = a.state ∧
    (update_text_labels_with r name a).timer = a.timer ∧
    (update_text_labels_with r name a).action_bar_timer = a.action_bar_timer ∧
    (update_text_labels_with r name a).programme = a.programme ∧
    (update_text_labels_with r name a).reward = a.reward ∧
    (update_text_labels_with r name a).pushed = a.pushed ∧
    (update_text_labels_with r name a).dirty = a.dirty ∧
    (update_text_labels_with r name a).back_calls = a.back_calls := by
  unfold update_text_labels_with
  split_ifs <;> simp

theorem update_text_labels_frame (a : ActivityWindow) :
    (update_text_labels a).elapsed = a.elapsed ∧
    (update_text_labels a).started_at = a.started_at ∧
    (update_text_labels a).state = a.state ∧
    (update_text_labels a).timer = a.timer ∧
    (update_text_labels a).action_bar_timer = a.action_bar_timer ∧
    (update_text_labels a).programme = a.programme ∧
    (update_text_labels a).reward = a.reward ∧
    (update_text_labels a).pushed = a.pushed ∧
    (update_text_labels a).dirty = a.dirty ∧
    (update_text_labels a).back_calls = a.back_calls :=
  update_text_labels_with_frame _ _ a

theorem on_tick_elapsed (now : Int) (a : ActivityWindow) :
    (on_tick now a).elapsed = now - a.started_at := by
  unfold on_tick
  rw [(update_text_labels_frame _).1]
  simp only []
  split_ifs <;> simp [activity_complete, activity_window_set_active]

theorem on_tick_started_at (now : Int) (a : ActivityWindow) :
    (on_tick now a).started_at = a.started_at := by
  unfold on_tick
  rw [(update_text_labels_frame _).2.1]
  simp only []
  split_ifs <;> simp [activity_complete, activity_window_set_active]

theorem on_tick_programme (now : Int) (a : ActivityWindow) :
    (on_tick now a).programme = a.programme := by
  unfold on_tick
  rw [(update_text_labels_frame _).2.2.2.2.2.1]
  simp only []
  split_ifs <;> simp [activity_complete, activity_window_set_active]

/-- A tick before the end of the programme keeps the run state and re-registers
the timer. -/
theorem on_tick_before_end (now : Int) (a : ActivityWindow)
    (h : now - a.started_at < programme_duration a.programme) :
    (on_tick now a).state = a.state ∧ (on_tick now a).timer = true ∧
    (on_tick now a).reward = a.reward ∧ (on_tick now a).pushed = a.pushed := by
  have hn : ¬ (now - a.started_at ≥ programme_duration a.programme) := by omega
  unfold on_tick
  rw [(update_text_labels_frame _).2.2.1, (update_text_labels_frame _).2.2.2.1,
    (update_text_labels_frame _).2.2.2.2.2.2.1, (update_text_labels_frame _).2.2.2.2.2.2.2.1]
  simp [hn]

/-- A tick at or after the end of the programme deactivates the session and
raises the reward window. -/
theorem on_tick_at_end (now : Int) (a : ActivityWindow)
    (h : programme_duration a.programme ≤ now - a.started_at) :
    (on_tick now a).state = .ACTIVITY_PAUSED ∧ (on_tick now a).timer = false ∧
    (on_tick now a).reward = true ∧ (on_tick now a).pushed = a.pushed + 1 := by
  have hn : now - a.started_at ≥ programme_duration a.programme := h
  unfold on_tick
  rw [(update_text_labels_frame _).2.2.1, (update_text_labels_frame _).2.2.2.1,
    (update_text_labels_frame _).2.2.2.2.2.2.1, (update_text_labels_frame _).2.2.2.2.2.2.2.1]
  simp [hn, activity_complete, activity_window_set_active]

/-! ## Skip backward (`on_button_down`) -/

/-- Claim C1, evaluated on the code. In the scenario programme at elapsed 92 s
(Run, 2 s into the phase, session elapsed at least 5 s) the previous phase, Walk,
starts at 30 s. At a real clock reading, skip backward followed by a tick at the
same reading leaves elapsed at 0, the absolute beginning: the test
`elapsed - started_at < 5` subtracts the clock anchor and is met. At no clock
reading at all does the recomputed elapsed equal 30. -/
theorem on_button_down_near_boundary_misses_previous_phase :
    (running scenario 1700000000 92).state = .ACTIVITY_ACTIVE ∧
    (running scenario 1700000000 92).elapsed = 1700000000 - (running scenario 1700000000 92).started_at ∧
    programme_phase_elapsed_at scenario 92 = 2 ∧
    phase_start scenario (phase_index_at scenario 92 - 1) = 30 ∧
    (on_tick 1700000000 (on_button_down 1700000000 (running scenario 1700000000 92))).elapsed = 0 ∧
    (∀ now : Int, (on_tick now (on_button_down now (running scenario now 92))).elapsed = 0 ∨
      (on_tick now (on_button_down now (running scenario now 92))).elapsed = 27) := by
  refine ⟨by decide, by decide, by decide, by decide, by decide, ?_⟩
  intro now
  have h1 : programme_phase_elapsed_at scenario 92 = 2 := by decide
  have h2 : programme_phase_elapsed_at scenario 87 = 57 := by decide
  simp only [on_tick_elapsed]
  simp only [on_button_down, running, activity_window_create, if_true, h1]
  norm_num [h2]
  split_ifs
  · left; simp
  · right; simp; omega

/-- Claim C2 as stated fails on the code: in the scenario programme at elapsed
10 s (Warm-up, 10 s into the phase, start offset 0) skip backward followed by a
tick at the same clock reading leaves elapsed at -1, not at 0. -/
theorem on_button_down_restart_counterexample :
    (running scenario 1700000000 10).state = .ACTIVITY_ACTIVE ∧
    (running scenario 1700000000 10).elapsed = 1700000000 - (running scenario 1700000000 10).started_at ∧
    5 ≤ programme_phase_elapsed_at scenario 10 ∧
    phase_start scenario (phase_index_at scenario 10) = 0 ∧
    (on_tick 1700000000 (on_button_down 1700000000 (running scenario 1700000000 10))).elapsed = -1 ∧
    ¬ (0 ≤ (on_tick 1700000000 (on_button_down 1700000000 (running scenario 1700000000 10))).elapsed) := by
  decide

/-- Claim C2, amended. For an Active session with elapsed = now - started_at that
is at least 5 s into its phase, skip backward advances started_at by the
phase-relative elapsed plus one and changes nothing else. The elapsed recomputed
by a tick at the same clock reading is the start offset of the current phase
minus 1; recomputed one second later it is the start offset of the current phase,
non-negative, in the same phase and zero seconds into it. -/
theorem on_button_down_restarts_phase (now : Int) (a : ActivityWindow)
    (hpos : ∀ ph ∈ a.programme, 0 < ph.duration)
    (hact : a.state = .ACTIVITY_ACTIVE)
    (hel : a.elapsed = now - a.started_at)
    (he : 5 ≤ programme_phase_elapsed_at a.programme a.elapsed) :
    on_button_down now a = { a with
      started_at := a.started_at + (programme_phase_elapsed_at a.programme a.elapsed + 1) } ∧
    (on_tick now (on_button_down now a)).elapsed =
      phase_start a.programme (phase_index_at a.programme a.elapsed) - 1 ∧
    (on_tick (now + 1) (on_button_down now a)).elapsed =
      phase_start a.programme (phase_index_at a.programme a.elapsed) ∧
    0 ≤ (on_tick (now + 1) (on_button_down now a)).elapsed ∧
    phase_index_at a.programme (on_tick (now + 1) (on_button_down now a)).elapsed =
      phase_index_at a.programme a.elapsed ∧
    programme_phase_elapsed_at a.programme (on_tick (now + 1) (on_button_down now a)).elapsed = 0 := by
  have hne : programme_phase_elapsed_at a.programme a.elapsed ≠ 0 := by omega
  have hstart := sub_phase_elapsed_eq_phase_start a.programme a.elapsed hne
  obtain ⟨s1, s2, s3⟩ := phase_start_of_elapsed a.programme hpos a.elapsed hne
  have hn5 : ¬ (programme_phase_elapsed_at a.programme a.elapsed < 5) := by omega
  have hdown : on_button_down now a = { a with
      started_at := a.started_at + (programme_phase_elapsed_at a.programme a.elapsed + 1) } := by
    simp [on_button_down, hact, hn5]
  have hsame : (on_tick now (on_button_down now a)).elapsed =
      a.elapsed - programme_phase_elapsed_at a.programme a.elapsed - 1 := by
    rw [on_tick_elapsed, hdown]; simp only []; omega
  have hnext : (on_tick (now + 1) (on_button_down now a)).elapsed =
      a.elapsed - programme_phase_elapsed_at a.programme a.elapsed := by
    rw [on_tick_elapsed, hdown]; simp only []; omega
  refine ⟨hdown, ?_, ?_, ?_, ?_, ?_⟩
  · rw [hsame, ← hstart]
  · rw [hnext, ← hstart]
  · rw [hnext]; exact s1
  · rw [hnext]; exact s2
  · rw [hnext]; exact s3

theorem on_button_down_restarts_phase_witness :
    (∀ ph ∈ (running scenario 1700000000 10).programme, 0 < ph.duration) ∧
    (running scenario 1700000000 10).state = .ACTIVITY_ACTIVE ∧
    (running scenario 1700000000 10).elapsed =
      1700000000 - (running scenario 1700000000 10).started_at ∧
    5 ≤ programme_phase_elapsed_at (running scenario 1700000000 10).programme
      (running scenario 1700000000 10).elapsed ∧
    (on_tick 1700000000 (on_button_down 1700000000 (running scenario 1700000000 10))).elapsed =
      phase_start (running scenario 1700000000 10).programme
        (phase_index_at (running scenario 1700000000 10).programme
          (running scenario 1700000000 10).elapsed) - 1 ∧
    (on_tick (1700000000 + 1)
      (on_button_down 1700000000 (running scenario 1700000000 10))).elapsed = 0 :=
  ⟨by decide, by decide, by decide, by decide,
    (on_button_down_restarts_phase 1700000000 (running scenario 1700000000 10)
      (by decide) (by decide) (by decide) (by decide)).2.1,
    by decide⟩

/-! ## Skip forward (`on_button_up`) -/

/-- Claim C3. For an Active session of a well-formed programme with
elapsed = now - started_at and elapsed + phase_remaining(elapsed) below the total
duration, skip forward decreases started_at by exactly phase_remaining(elapsed)
and changes nothing else; the elapsed recomputed by the next tick at the same
clock reading is the start offset of the next phase, lies in that phase with
phase-relative elapsed 0, and the session is still Active. -/
theorem on_button_up_skips_to_next_phase (now : Int) (a : ActivityWindow)
    (hwf : well_formed a.programme)
    (hact : a.state = .ACTIVITY_ACTIVE)
    (hel : a.elapsed = now - a.started_at)
    (hlt : a.elapsed + programme_phase_remaining_at a.programme a.elapsed <
      programme_duration a.programme) :
    on_button_up a = { a with
      started_at := a.started_at - programme_phase_remaining_at a.programme a.elapsed } ∧
    (on_tick now (on_button_up a)).elapsed =
      phase_start a.programme (phase_index_at a.programme a.elapsed + 1) ∧
    programme_phase_elapsed_at a.programme (on_tick now (on_button_up a)).elapsed = 0 ∧
    phase_index_at a.programme (on_tick now (on_button_up a)).elapsed =
      phase_index_at a.programme a.elapsed + 1 ∧
    (on_tick now (on_button_up a)).state = .ACTIVITY_ACTIVE := by
  obtain ⟨r1, r2, r3⟩ := add_phase_remaining a.programme hwf.2 a.elapsed (Or.inr hwf.1) hlt
  have hn : ¬ (a.elapsed + programme_phase_remaining_at a.programme a.elapsed ≥
      programme_duration a.programme) := by omega
  have hup : on_button_up a = { a with
      started_at := a.started_at - programme_phase_remaining_at a.programme a.elapsed } := by
    simp [on_button_up, hact, hn]
  have htick : (on_tick now (on_button_up a)).elapsed =
      a.elapsed + programme_phase_remaining_at a.programme a.elapsed := by
    rw [on_tick_elapsed, hup]; simp only []; omega
  have hbefore : now - (on_button_up a).started_at <
      programme_duration (on_button_up a).programme := by
    rw [hup]; simp only []; omega
  refine ⟨hup, ?_, ?_, ?_, ?_⟩
  · rw [htick]; exact r1
  · rw [htick]; exact r2
  · rw [htick]; exact r3
  · rw [(on_tick_before_end now _ hbefore).1, hup]; exact hact

theorem on_button_up_skips_to_next_phase_witness :
    well_formed (running scenario 1700000000 10).programme ∧
    (running scenario 1700000000 10).state = .ACTIVITY_ACTIVE ∧
    (running scenario 1700000000 10).elapsed =
      1700000000 - (running scenario 1700000000 10).started_at ∧
    (on_button_up (running scenario 1700000000 10)).started_at = 1700000000 - 10 - 20 ∧
    (on_tick 1700000000 (on_button_up (running scenario 1700000000 10))).elapsed =
      phase_start (running scenario 1700000000 10).programme
        (phase_index_at (running scenario 1700000000 10).programme
          (running scenario 1700000000 10).elapsed + 1) ∧
    (on_tick 1700000000 (on_button_up (running scenario 1700000000 10))).elapsed = 30 :=
  ⟨by decide, by decide, by decide, by decide,
    (on_button_up_skips_to_next_phase 1700000000 (running scenario 1700000000 10)
      (by decide) (by decide) (by decide) (by decide)).2.1,
    by decide⟩

/-- Claim C4 as stated fails on the code: in the scenario programme at elapsed
100 s (Run, 110 s remaining, 100 + 110 = 210 = total duration) skip forward
raises the reward window, but the run state is not Complete, neither after the
call nor after the `on_disappear` that the push triggers. -/
theorem on_button_up_at_end_counterexample :
    (running scenario 1700000000 100).state = .ACTIVITY_ACTIVE ∧
    (running scenario 1700000000 100).elapsed +
        programme_phase_remaining_at scenario (running scenario 1700000000 100).elapsed ≥
      programme_duration scenario ∧
    (on_button_up (running scenario 1700000000 100)).pushed = 1 ∧
    (on_button_up (running scenario 1700000000 100)).state ≠ .ACTIVITY_COMPLETE ∧
    (on_disappear 1700000000 (on_button_up (running scenario 1700000000 100))).state ≠
      .ACTIVITY_COMPLETE := by
  decide

/-- Claim C4, amended. For an Active session with
elapsed + phase_remaining(elapsed) at or past the total duration, skip forward
raises the completion screen within the call (the reward window is created and
pushed once), with no further tick needed and without adjusting started_at or
elapsed. The run state is not set to Complete, neither by the call nor by the
`on_disappear` that the push triggers. -/
theorem on_button_up_at_end_raises_reward (now : Int) (a : ActivityWindow)
    (hact : a.state = .ACTIVITY_ACTIVE)
    (hge : a.elapsed + programme_phase_remaining_at a.programme a.elapsed ≥
      programme_duration a.programme) :
    (on_button_up a).reward = true ∧
    (on_button_up a).pushed = a.pushed + 1 ∧
    (on_button_up a).started_at = a.started_at ∧
    (on_button_up a).elapsed = a.elapsed ∧
    (on_button_up a).state ≠ .ACTIVITY_COMPLETE ∧
    (on_disappear now (on_button_up a)).reward = true ∧
    (on_disappear now (on_button_up a)).pushed = a.pushed + 1 ∧
    (on_disappear now (on_button_up a)).state ≠ .ACTIVITY_COMPLETE := by
  have hup : on_button_up a = activity_complete a := by
    simp [on_button_up, hact, hge]
  rw [hup]
  simp [activity_complete, on_disappear, activity_window_set_active, hact]

theorem on_button_up_at_end_raises_reward_witness :
    (running scenario 1700000000 100).state = .ACTIVITY_ACTIVE ∧
    (running scenario 1700000000 100).elapsed +
        programme_phase_remaining_at (running scenario 1700000000 100).programme
          (running scenario 1700000000 100).elapsed ≥
      programme_duration (running scenario 1700000000 100).programme ∧
    (on_button_up (running scenario 1700000000 100)).reward = true ∧
    (on_button_up (running scenario 1700000000 100)).pushed =
      (running scenario 1700000000 100).pushed + 1 :=
  ⟨by decide, by decide,
    (on_button_up_at_end_raises_reward 1700000000 (running scenario 1700000000 100)
      (by decide) (by decide)).1,
    (on_button_up_at_end_raises_reward 1700000000 (running scenario 1700000000 100)
      (by decide) (by decide)).2.1⟩

/-! ## Completion and pause/resume -/

theorem on_button_up_of_not_active (a : ActivityWindow) (h : a.state ≠ .ACTIVITY_ACTIVE) :
    on_button_up a = a := by
  simp [on_button_up, h]

theorem on_button_down_of_not_active (now : Int) (a : ActivityWindow)
    (h : a.state ≠ .ACTIVITY_ACTIVE) : on_button_down now a = a := by
  simp [on_button_down, h]

/-- A deactivated session whose anchor already lies a whole programme before
`now` stays so under up presses, down presses and ticks not before `now`. -/
theorem deliver_keeps_finished (now : Int) (b : ActivityWindow) (e : Event)
    (he : later_skip_or_tick now e = true)
    (hs : b.state = .ACTIVITY_PAUSED) (ht : b.timer = false)
    (hend : programme_duration b.programme ≤ now - b.started_at) :
    (deliver b e).state = .ACTIVITY_PAUSED ∧ (deliver b e).timer = false ∧
    programme_duration (deliver b e).programme ≤ now - (deliver b e).started_at := by
  have hna : b.state ≠ .ACTIVITY_ACTIVE := by rw [hs]; decide
  cases e with
  | tick n =>
    have hn : now ≤ n := by simpa [later_skip_or_tick] using he
    have hend2 : programme_duration b.programme ≤ n - b.started_at := by omega
    obtain ⟨t1, t2, _, _⟩ := on_tick_at_end n b hend2
    refine ⟨t1, t2, ?_⟩
    show programme_duration (on_tick n b).programme ≤ now - (on_tick n b).started_at
    rw [on_tick_programme, on_tick_started_at]; exact hend
  | select n => simp [later_skip_or_tick] at he
  | up =>
    show (on_button_up b).state = _ ∧ (on_button_up b).timer = _ ∧
      programme_duration (on_button_up b).programme ≤ now - (on_button_up b).started_at
    rw [on_button_up_of_not_active b hna]; exact ⟨hs, ht, hend⟩
  | down n =>
    show (on_button_down n b).state = _ ∧ (on_button_down n b).timer = _ ∧
      programme_duration (on_button_down n b).programme ≤ now - (on_button_down n b).started_at
    rw [on_button_down_of_not_active n b hna]; exact ⟨hs, ht, hend⟩
  | back => simp [later_skip_or_tick] at he

theorem deliver_all_keeps_finished (now : Int) (events : List Event) :
    ∀ b : ActivityWindow, (∀ e ∈ events, later_skip_or_tick now e = true) →
      b.state = .ACTIVITY_PAUSED → b.timer = false →
      programme_duration b.programme ≤ now - b.started_at →
      (deliver_all b events).state = .ACTIVITY_PAUSED ∧ (deliver_all b events).timer = false := by
  induction events with
  | nil => intro b _ hs ht _; exact ⟨hs, ht⟩
  | cons e rest ih =>
    intro b hev hs ht hend
    obtain ⟨s1, s2, s3⟩ := deliver_keeps_finished now b e (hev e (List.mem_cons_self _ _)) hs ht hend
    have := ih (deliver b e) (fun x hx => hev x (List.mem_cons_of_mem _ hx)) s1 s2 s3
    simpa [deliver_all] using this

/-- Claim C5 as stated fails on the code: a tick that computes
elapsed = 210 = total duration in the scenario programme leaves the run state
Paused, not Complete, and a later select press makes the session Active again
with a tick registered. -/
theorem completion_by_tick_counterexample :
    (on_tick 1700000001 (running scenario 1700000000 209)).elapsed ≥ programme_duration scenario ∧
    (on_tick 1700000001 (running scenario 1700000000 209)).state = .ACTIVITY_PAUSED ∧
    (on_tick 1700000001 (running scenario 1700000000 209)).state ≠ .ACTIVITY_COMPLETE ∧
    (on_button_select 1700000002
      (on_tick 1700000001 (running scenario 1700000000 209))).state = .ACTIVITY_ACTIVE ∧
    (on_button_select 1700000002
      (on_tick 1700000001 (running scenario 1700000000 209))).timer = true := by
  decide

/-- Claim C5, amended. Whenever a tick computes elapsed = now - started_at at or
past the total duration, the session is afterwards Paused with no tick
registered and the reward window raised once; every later sequence of up
presses, down presses and further ticks (at clock readings not before `now`)
leaves the run state Paused and registers no tick. -/
theorem completion_by_tick_stays_paused (now : Int) (a : ActivityWindow) (events : List Event)
    (hend : programme_duration a.programme ≤ now - a.started_at)
    (hev : ∀ e ∈ events, later_skip_or_tick now e = true) :
    (on_tick now a).elapsed ≥ programme_duration a.programme ∧
    (on_tick now a).state = .ACTIVITY_PAUSED ∧
    (on_tick now a).timer = false ∧
    (on_tick now a).reward = true ∧
    (on_tick now a).pushed = a.pushed + 1 ∧
    (deliver_all (on_tick now a) events).state = .ACTIVITY_PAUSED ∧
    (deliver_all (on_tick now a) events).timer = false := by
  obtain ⟨t1, t2, t3, t4⟩ := on_tick_at_end now a hend
  have hend2 : programme_duration (on_tick now a).programme ≤ now - (on_tick now a).started_at := by
    rw [on_tick_programme, on_tick_started_at]; exact hend
  obtain ⟨d1, d2⟩ := deliver_all_keeps_finished now events (on_tick now a) hev t1 t2 hend2
  refine ⟨?_, t1, t2, t3, t4, d1, d2⟩
  rw [on_tick_elapsed]; exact hend

theorem completion_by_tick_stays_paused_witness :
    programme_duration (running scenario 1700000000 209).programme ≤
      1700000001 - (running scenario 1700000000 209).started_at ∧
    (deliver_all (on_tick 1700000001 (running scenario 1700000000 209))
      [.up, .down 1700000002, .tick 1700000002, .up]).state = .ACTIVITY_PAUSED ∧
    (deliver_all (on_tick 1700000001 (running scenario 1700000000 209))
      [.up, .down 1700000002, .tick 1700000002, .up]).timer = false :=
  ⟨by decide,
    (completion_by_tick_stays_paused 1700000001 (running scenario 1700000000 209)
      [.up, .down 1700000002, .tick 1700000002, .up] (by decide) (by decide)).2.2.2.2.2⟩

/-- Claim C6. Activating a session with elapsed = E at clock reading t0, ticking
at clock reading t0 + D with E + D below the total duration, and then
deactivating (at any clock reading) leaves elapsed = E + D, run state Paused and
no tick registered; after the tick the session was Active with a tick
registered, and deactivation never alters elapsed. -/
theorem pause_resume_exact (t0 D t1 : Int) (a : ActivityWindow)
    (_hp : a.state = .ACTIVITY_PAUSED)
    (hlt : a.elapsed + D < programme_duration a.programme) :
    (on_tick (t0 + D) (activity_window_set_active t0 a true)).elapsed = a.elapsed + D ∧
    (on_tick (t0 + D) (activity_window_set_active t0 a true)).state = .ACTIVITY_ACTIVE ∧
    (on_tick (t0 + D) (activity_window_set_active t0 a true)).timer = true ∧
    (activity_window_set_active t1
      (on_tick (t0 + D) (activity_window_set_active t0 a true)) false).elapsed = a.elapsed + D ∧
    (activity_window_set_active t1
      (on_tick (t0 + D) (activity_window_set_active t0 a true)) false).state = .ACTIVITY_PAUSED ∧
    (activity_window_set_active t1
      (on_tick (t0 + D) (activity_window_set_active t0 a true)) false).timer = false ∧
    (∀ (t : Int) (b : ActivityWindow), (activity_window_set_active t b false).elapsed = b.elapsed) := by
  have hoff : ∀ (t : Int) (b : ActivityWindow),
      (activity_window_set_active t b false).elapsed = b.elapsed := by
    intro t b; simp [activity_window_set_active]
  have hel : (on_tick (t0 + D) (activity_window_set_active t0 a true)).elapsed = a.elapsed + D := by
    rw [on_tick_elapsed]; simp [activity_window_set_active]; omega
  have hbefore : (t0 + D) - (activity_window_set_active t0 a true).started_at <
      programme_duration (activity_window_set_active t0 a true).programme := by
    simp [activity_window_set_active]; omega
  obtain ⟨b1, b2, _, _⟩ := on_tick_before_end (t0 + D) _ hbefore
  refine ⟨hel, ?_, b2, ?_, ?_, ?_, hoff⟩
  · rw [b1]; simp [activity_window_set_active]
  · rw [hoff, hel]
  · simp [activity_window_set_active]
  · simp [activity_window_set_active]

theorem pause_resume_exact_witness :
    ({ activity_window_create with programme := scenario, elapsed := 40 } : ActivityWindow).state =
      .ACTIVITY_PAUSED ∧
    (activity_window_set_active 1700000099
      (on_tick (1700000000 + 25)
        (activity_window_set_active 1700000000
          { activity_window_create with programme := scenario, elapsed := 40 } true))
      false).elapsed = 40 + 25 :=
  ⟨by decide,
    (pause_resume_exact 1700000000 25 1700000099
      { activity_window_create with programme := scenario, elapsed := 40 }
      (by decide) (by decide)).2.2.2.1⟩

/-! ## Label formatting (`update_text_labels`) -/

theorem decimal_digits_fuel (f1 : Nat) :
    ∀ (f2 n : Nat), n < f1 → n < f2 → decimal_digits f1 n = decimal_digits f2 n := by
  induction f1 with
  | zero => intro f2 n h1 _; omega
  | succ k ih =>
    intro f2 n h1 h2
    cases f2 with
    | zero => omega
    | succ m =>
      unfold decimal_digits
      by_cases h : n < 10
      · simp [h]
      · simp only [h, if_false]
        rw [ih m (n / 10) (by omega) (by omega)]

theorem decimal_of_lt_ten (n : Nat) (h : n < 10) : decimal n = [digit_char n] := by
  simp [decimal, decimal_digits, h]

theorem decimal_of_ten_le (n : Nat) (h : 10 ≤ n) :
    decimal n = decimal (n / 10) ++ [digit_char (n % 10)] := by
  have hn : ¬ n < 10 := by omega
  unfold decimal
  rw [decimal_digits]
  simp only [hn, if_false]
  rw [decimal_digits_fuel n (n / 10 + 1) (n / 10) (by omega) (by omega)]

theorem decimal_length_pos (n : Nat) : 1 ≤ (decimal n).length := by
  by_cases h : n < 10
  · simp [decimal_of_lt_ten n h]
  · rw [decimal_of_ten_le n (by omega)]; simp

theorem decimal_length_le (k : Nat) : ∀ n : Nat, n < 10 ^ (k + 1) → (decimal n).length ≤ k + 1 := by
  induction k with
  | zero => intro n h; simp at h; simp [decimal_of_lt_ten n h]
  | succ k ih =>
    intro n h
    by_cases h10 : n < 10
    · simp [decimal_of_lt_ten n h10]
    · rw [decimal_of_ten_le n (by omega)]
      have hdiv : n / 10 < 10 ^ (k + 1) := by
        rw [Nat.div_lt_iff_lt_mul (by decide)]
        calc n < 10 ^ (k + 1 + 1) := h
          _ = 10 ^ (k + 1) * 10 := by ring
      have := ih (n / 10) hdiv
      simp; omega

theorem decimal_length_ge_two (n : Nat) (h : 10 ≤ n) : 2 ≤ (decimal n).length := by
  rw [decimal_of_ten_le n h]
  have := decimal_length_pos (n / 10)
  simp; omega

theorem decimal_two_digits (n : Nat) (h1 : 10 ≤ n) (h2 : n < 100) :
    decimal n = [digit_char (n / 10), digit_char (n % 10)] := by
  rw [decimal_of_ten_le n h1, decimal_of_lt_ten (n / 10) (by omega)]
  rfl

/-- The numeral starts with neither a space nor, unless the number is 0, a zero. -/
theorem decimal_head (n : Nat) : ∀ c ∈ (decimal n).head?, c ≠ ' ' ∧ (c = '0' → n = 0) := by
  induction n using Nat.strong_induction_on with
  | _ n ih =>
    by_cases h : n < 10
    · rw [decimal_of_lt_ten n h]
      intro c hc
      simp at hc
      subst hc
      interval_cases n <;> decide
    · rw [decimal_of_ten_le n (by omega)]
      intro c hc
      have hpos := decimal_length_pos (n / 10)
      have hhead : (decimal (n / 10) ++ [digit_char (n % 10)]).head? = (decimal (n / 10)).head? := by
        cases hd : decimal (n / 10) with
        | nil => rw [hd] at hpos; simp at hpos
        | cons x xs => simp
      rw [hhead] at hc
      obtain ⟨c1, c2⟩ := ih (n / 10) (by omega) c hc
      refine ⟨c1, fun h0 => ?_⟩
      have := c2 h0
      omega

theorem decimal_length_ge_three (n : Nat) (h : 100 ≤ n) : 3 ≤ (decimal n).length := by
  rw [decimal_of_ten_le n (by omega)]
  have := decimal_length_ge_two (n / 10) (by omega)
  simp; omega

theorem digit_char_eq_digitChar (d : Nat) (h : d < 10) : digit_char d = Nat.digitChar d := by
  interval_cases d <;> rfl

/-- With enough fuel the digits are those of the library conversion `Nat.toDigits`. -/
theorem toDigitsCore_eq_decimal_digits (fuel : Nat) :
    ∀ (n : Nat) (ds : List Char), n < fuel →
      Nat.toDigitsCore 10 fuel n ds = decimal_digits fuel n ++ ds := by
  induction fuel with
  | zero => intro n ds h; omega
  | succ k ih =>
    intro n ds h
    unfold Nat.toDigitsCore decimal_digits
    by_cases h10 : n < 10
    · have hz : n / 10 = 0 := by omega
      have hm : n % 10 = n := by omega
      simp [h10, hz, hm, digit_char_eq_digitChar n h10]
    · have hz : ¬ (n / 10 = 0) := by omega
      simp only [h10, hz, if_false]
      rw [ih (n / 10) _ (by omega), digit_char_eq_digitChar (n % 10) (by omega)]
      simp

/-- The numeral is the one the library prints for the number. -/
theorem decimal_eq_repr (n : Nat) : String.mk (decimal n) = toString n := by
  show String.mk (decimal n) = (Nat.toDigits 10 n).asString
  unfold Nat.toDigits decimal
  rw [toDigitsCore_eq_decimal_digits (n + 1) n [] (by omega)]
  simp [List.asString]

/-- The conversion `%02ld` of a value below 60 is its two decimal digits. -/
theorem fmt_ld_seconds (s : Int) (h0 : 0 ≤ s) (h60 : s < 60) :
    fmt_ld 2 true s = [digit_char (s.toNat / 10), digit_char (s.toNat % 10)] := by
  obtain ⟨n, rfl⟩ := Int.eq_ofNat_of_zero_le h0
  have hn : n < 60 := by omega
  have hneg : ¬ ((n : Int) < 0) := by omega
  simp only [fmt_ld, Int.natAbs_ofNat, Int.toNat_ofNat, hneg, if_false, if_true]
  by_cases h : n < 10
  · rw [decimal_of_lt_ten n h]
    have h1 : n / 10 = 0 := by omega
    have h2 : n % 10 = n := by omega
    rw [h1, h2]
    rfl
  · rw [decimal_two_digits n (by omega) (by omega)]
    rfl

/-- The conversions `%1ld` and `%2ld` of the minutes add no padding in the branch
that uses them. -/
theorem fmt_ld_minutes (w : Nat) (m : Int) (h0 : 0 ≤ m)
    (hw : w = 1 ∨ (w = 2 ∧ 9 < m)) : fmt_ld w false m = decimal m.toNat := by
  obtain ⟨n, rfl⟩ := Int.eq_ofNat_of_zero_le h0
  have hneg : ¬ ((n : Int) < 0) := by omega
  simp only [fmt_ld, Int.natAbs_ofNat, Int.toNat_ofNat, hneg, if_false]
  rcases hw with rfl | ⟨rfl, h9⟩
  · have := decimal_length_pos n
    have hz : 1 - (([] : List Char).length + (decimal n).length) = 0 := by
      simp; omega
    rw [hz]; simp
  · have := decimal_length_ge_two n (by omega)
    have hz : 2 - (([] : List Char).length + (decimal n).length) = 0 := by
      simp; omega
    rw [hz]; simp

/-- Claim C7 as stated fails on the code: a phase-remaining reading of 6000 s
(100 minutes) is written as "100:00", a minutes field of three digits, not two. -/
theorem time_remaining_label_counterexample :
    (running [⟨.PROGRAMME_STATE_RUN, 6000⟩] 1700000000 0).state = .ACTIVITY_ACTIVE ∧
    programme_phase_remaining_at [⟨.PROGRAMME_STATE_RUN, 6000⟩] 0 = 6000 ∧
    (10 : Int) ≤ 6000 / 60 ∧
    (update_text_labels
      (running [⟨.PROGRAMME_STATE_RUN, 6000⟩] 1700000000 0)).time_remaining_buffer = "100:00" ∧
    (update_text_labels_with 6000 "Run"
      (running scenario 1700000000 100)).time_remaining_buffer = "100:00" ∧
    (decimal ((6000 : Int) / 60).toNat).length = 3 := by
  decide

/-- Claim C7, amended. For an Active session and a phase-remaining reading r with
0 <= r (r in the range of the 32-bit `time_t`), the label refresh writes the
time-remaining label as the decimal numeral of r / 60, a colon, and the two
decimal digits of r % 60. The minutes numeral is the one the library prints for
r / 60; it has no leading space and no leading zero (it is the single digit 0
when r / 60 = 0), one digit up to 9 minutes, two from 10 to 99 and three or more
from 100. Readings 125, 9, 600 and 6000 give "2:05", "0:09", "10:00" and
"100:00". -/
theorem update_text_labels_time_remaining (a : ActivityWindow) (name : String) (r : Int)
    (hact : a.state = .ACTIVITY_ACTIVE) (h0 : 0 ≤ r) (hmax : r < 2 ^ 31) :
    (update_text_labels_with r name a).time_remaining_buffer =
      String.mk (decimal (r / 60).toNat ++
        [':', digit_char ((r % 60).toNat / 10), digit_char ((r % 60).toNat % 10)]) ∧
    (∀ c ∈ (decimal (r / 60).toNat).head?, c ≠ ' ' ∧ (c = '0' → r / 60 = 0)) ∧
    (r / 60 ≤ 9 → (decimal (r / 60).toNat).length = 1) ∧
    (10 ≤ r / 60 → 2 ≤ (decimal (r / 60).toNat).length) ∧
    (10 ≤ r / 60 → r / 60 ≤ 99 → (decimal (r / 60).toNat).length = 2) ∧
    (100 ≤ r / 60 → 3 ≤ (decimal (r / 60).toNat).length) ∧
    String.mk (decimal (r / 60).toNat) = toString (r / 60).toNat ∧
    (update_text_labels
      (running [⟨.PROGRAMME_STATE_RUN, 6000⟩] 1700000000 0)).time_remaining_buffer = "100:00" ∧
    (update_text_labels (running [⟨.PROGRAMME_STATE_RUN, 125⟩] 1700000000 0)).time_remaining_buffer
      = "2:05" ∧
    (update_text_labels (running scenario 1700000000 21)).time_remaining_buffer = "0:09" ∧
    (update_text_labels (running [⟨.PROGRAMME_STATE_WALK, 600⟩] 1700000000 0)).time_remaining_buffer
      = "10:00" := by
  have hm0 : 0 ≤ r / 60 := Int.ediv_nonneg h0 (by norm_num)
  have hs0 : 0 ≤ r % 60 := Int.emod_nonneg r (by norm_num)
  have hs60 : r % 60 < 60 := Int.emod_lt_of_pos r (by norm_num)
  have hdiv : r.tdiv 60 = r / 60 := Int.tdiv_eq_ediv h0 (by norm_num)
  have hmod : r.tmod 60 = r % 60 := Int.tmod_eq_emod h0 (by norm_num)
  obtain ⟨m, hm⟩ := Int.eq_ofNat_of_zero_le hm0
  have hmlt : m < 10 ^ (7 + 1) := by
    have : r / 60 < 10 ^ 8 := by omega
    rw [hm] at this
    exact_mod_cast this
  have hlen := decimal_length_le 7 m hmlt
  have hout : ∀ w : Nat, (w = 1 ∨ (w = 2 ∧ 9 < r / 60)) →
      snprintf 24 (fmt_ld w false (r.tdiv 60) ++ [':'] ++ fmt_ld 2 true (r.tmod 60)) =
      String.mk (decimal (r / 60).toNat ++
        [':', digit_char ((r % 60).toNat / 10), digit_char ((r % 60).toNat % 10)]) := by
    intro w hw
    rw [hdiv, hmod, fmt_ld_minutes w (r / 60) hm0 hw, fmt_ld_seconds (r % 60) hs0 hs60]
    unfold snprintf
    rw [List.take_of_length_le]
    · simp
    · rw [hm]; simp; omega
  refine ⟨?_, ?_, ?_, ?_, ?_, ?_, decimal_eq_repr _, by decide, by decide, by decide, by decide⟩
  · unfold update_text_labels_with
    rw [if_pos hact]
    by_cases h9 : r.tdiv 60 > 9
    · simp only [h9, if_true]
      exact hout 2 (Or.inr ⟨rfl, by rw [← hdiv]; exact h9⟩)
    · simp only [h9, if_false]
      have := hout 1 (Or.inl rfl)
      split_ifs <;> simpa using this
  · intro c hc
    obtain ⟨c1, c2⟩ := decimal_head (r / 60).toNat c hc
    refine ⟨c1, fun h => ?_⟩
    have := c2 h
    omega
  · intro h
    rw [hm] at h ⊢
    simp only [Int.toNat_ofNat]
    rw [decimal_of_lt_ten m (by omega)]; rfl
  · intro h
    rw [hm] at h ⊢
    simp only [Int.toNat_ofNat]
    exact decimal_length_ge_two m (by omega)
  · intro h1 h2
    rw [hm] at h1 h2 ⊢
    simp only [Int.toNat_ofNat]
    rw [decimal_two_digits m (by omega) (by omega)]; rfl
  · intro h
    rw [hm] at h ⊢
    simp only [Int.toNat_ofNat]
    exact decimal_length_ge_three m (by omega)

theorem update_text_labels_time_remaining_witness :
    (running scenario 1700000000 85).state = .ACTIVITY_ACTIVE ∧
    (0 : Int) ≤ 125 ∧ (125 : Int) < 2 ^ 31 ∧
    (update_text_labels_with 125 "Walk" (running scenario 1700000000 85)).time_remaining_buffer =
      String.mk (decimal ((125 : Int) / 60).toNat ++
        [':', digit_char (((125 : Int) % 60).toNat / 10),
          digit_char (((125 : Int) % 60).toNat % 10)]) ∧
    String.mk (decimal ((125 : Int) / 60).toNat ++
        [':', digit_char (((125 : Int) % 60).toNat / 10),
          digit_char (((125 : Int) % 60).toNat % 10)]) = "2:05" :=
  ⟨by decide, by decide, by decide,
    (update_text_labels_time_remaining (running scenario 1700000000 85) "Walk" 125
      (by decide) (by decide) (by decide)).1,
    by decide⟩

/-! ## Haptic pulse -/

/-- One label refresh of an Active session pulses exactly when the reading is 0. -/
theorem update_text_labels_with_vibes (r : Int) (name : String) (a : ActivityWindow)
    (hact : a.state = .ACTIVITY_ACTIVE) :
    (update_text_labels_with r name a).vibes = a.vibes + (if r = 0 then 1 else 0) := by
  unfold update_text_labels_with
  rw [if_pos hact]
  by_cases hr : r = 0
  · subst hr
    simp
  · by_cases h9 : r.tdiv 60 > 9
    · simp [h9, hr]
    · simp [h9, hr]

theorem refresh_readings_vibes (name : String) (readings : List Int) :
    ∀ a : ActivityWindow, a.state = .ACTIVITY_ACTIVE →
      (refresh_readings name readings a).vibes = a.vibes + readings.count 0 := by
  induction readings with
  | nil => intro a _; simp [refresh_readings]
  | cons r rest ih =>
    intro a hact
    have hstate : (update_text_labels_with r name a).state = .ACTIVITY_ACTIVE := by
      rw [(update_text_labels_with_frame r name a).2.2.1]; exact hact
    have h := ih (update_text_labels_with r name a) hstate
    have hv := update_text_labels_with_vibes r name a hact
    have hfold : refresh_readings name (r :: rest) a =
        refresh_readings name rest (update_text_labels_with r name a) := by
      simp [refresh_readings]
    rw [hfold, h, hv, List.count_cons]
    by_cases hr : r = 0
    · subst hr; simp; omega
    · simp [hr]

/-- Claim C8 as stated fails on the code: over label refreshes of an Active
session that read phase-remaining 1, 0, 0, 0 the pulse count goes 0, 1, 2, 3:
three pulses, one at every refresh that reads 0, not a single one. -/
theorem haptic_pulse_counterexample :
    (running scenario 1700000000 29).state = .ACTIVITY_ACTIVE ∧
    (refresh_readings "Warm-up" [1] (running scenario 1700000000 29)).vibes = 0 ∧
    (refresh_readings "Warm-up" [1, 0] (running scenario 1700000000 29)).vibes = 1 ∧
    (refresh_readings "Warm-up" [1, 0, 0] (running scenario 1700000000 29)).vibes = 2 ∧
    (refresh_readings "Warm-up" [1, 0, 0, 0] (running scenario 1700000000 29)).vibes = 3 := by
  decide

/-- Claim C8, amended. The haptic pulse is level-triggered: over any sequence of
label refreshes of an Active session, one pulse is emitted at every refresh at
which phase-remaining reads 0. Readings 1, 0, 0, 0 give three pulses. A tick
before the end of the programme pulses exactly when the reading at the
recomputed elapsed is 0, whatever the earlier readings were. -/
theorem haptic_pulse_level_triggered (name : String) (readings : List Int) (now : Int)
    (a : ActivityWindow) (hact : a.state = .ACTIVITY_ACTIVE) :
    (refresh_readings name readings a).vibes = a.vibes + readings.count 0 ∧
    (refresh_readings name [1, 0, 0, 0] a).vibes = a.vibes + 3 ∧
    (now - a.started_at < programme_duration a.programme →
      (on_tick now a).vibes = a.vibes +
        (if programme_phase_remaining_at a.programme (now - a.started_at) = 0 then 1 else 0)) := by
  refine ⟨refresh_readings_vibes name readings a hact, ?_, ?_⟩
  · rw [refresh_readings_vibes name [1, 0, 0, 0] a hact]; rfl
  · intro hlt
    have hn : ¬ (now - a.started_at ≥ programme_duration a.programme) := by omega
    unfold on_tick
    simp only [hn, if_false]
    unfold update_text_labels
    rw [update_text_labels_with_vibes _ _ _ (by simpa using hact)]

theorem haptic_pulse_level_triggered_witness :
    (running scenario 1700000000 29).state = .ACTIVITY_ACTIVE ∧
    (refresh_readings "Warm-up" [1, 0, 0, 0] (running scenario 1700000000 29)).vibes =
      (running scenario 1700000000 29).vibes + 3 :=
  ⟨by decide,
    (haptic_pulse_level_triggered "Warm-up" [] 1700000000 (running scenario 1700000000 29)
      (by decide)).2.1⟩

/-! ## Angle mapping (`calculate_angle`) -/

/-- Below the 32-bit limit the product is not wrapped. -/
theorem wrap32_of_range (x : Int) (h0 : 0 ≤ x) (h1 : x < 2 ^ 31) : wrap32 x = x := by
  unfold wrap32
  have : (x + 2 ^ 31) % 2 ^ 32 = x + 2 ^ 31 :=
    Int.emod_eq_of_lt (by omega) (by omega)
  omega

/-- For programmes of at most 32768 s the angle is the exact truncated quotient. -/
theorem calculate_angle_of_range (t total : Int) (h0 : 0 ≤ t) (ht : t ≤ total)
    (hpos : 0 < total) (hmax : total ≤ 32768) :
    calculate_angle t total = (65535 * t) / total := by
  unfold calculate_angle TRIG_MAX_RATIO
  rw [wrap32_of_range (65535 * t) (by omega) (by omega)]
  exact Int.tdiv_eq_ediv (by omega) (by omega)

/-- Claim C9 as stated fails on the code: with total_duration = 40000 and
t1 = 32768 <= t2 = 32769 the 32-bit product wraps at t2 and the angle drops from
53686 to -53686. -/
theorem calculate_angle_monotone_counterexample :
    (0 : Int) < 40000 ∧ (0 : Int) ≤ 32768 ∧ (32768 : Int) ≤ 32769 ∧ (32769 : Int) ≤ 40000 ∧
    calculate_angle 32768 40000 = 53686 ∧
    calculate_angle 32769 40000 = -53686 ∧
    ¬ (calculate_angle 32768 40000 ≤ calculate_angle 32769 40000) := by
  decide

/-- Claim C9, amended. For every total_duration with
0 < total_duration <= 32768 (so that the product with TRIG_MAX_RATIO fits 32
bits) and all t1, t2 with 0 <= t1 <= t2 <= total_duration,
calculate_angle(t1, total_duration) <= calculate_angle(t2, total_duration). -/
theorem calculate_angle_monotone (t1 t2 total : Int)
    (hpos : 0 < total) (hmax : total ≤ 32768)
    (h0 : 0 ≤ t1) (h12 : t1 ≤ t2) (h2 : t2 ≤ total) :
    calculate_angle t1 total ≤ calculate_angle t2 total := by
  rw [calculate_angle_of_range t1 total h0 (by omega) hpos hmax,
    calculate_angle_of_range t2 total (by omega) h2 hpos hmax]
  exact Int.ediv_le_ediv hpos (by omega)

theorem calculate_angle_monotone_witness :
    (0 : Int) < 210 ∧ (210 : Int) ≤ 32768 ∧ (0 : Int) ≤ 30 ∧ (30 : Int) ≤ 90 ∧ (90 : Int) ≤ 210 ∧
    calculate_angle 30 210 ≤ calculate_angle 90 210 :=
  ⟨by decide, by decide, by decide, by decide, by decide,
    calculate_angle_monotone 30 90 210 (by decide) (by decide) (by decide) (by decide)
      (by decide)⟩

/-- Without wrap-around the angle of the programme's end is `TRIG_MAX_RATIO`. -/
theorem calculate_angle_total (total : Int) (hpos : 0 < total) (hmax : total ≤ 32768) :
    calculate_angle total total = TRIG_MAX_RATIO := by
  rw [calculate_angle_of_range total total (by omega) (le_refl _) hpos hmax]
  unfold TRIG_MAX_RATIO
  exact Int.mul_ediv_cancel _ (by omega)

/-- Claim C10, evaluated on the code. For the scenario programme (total duration
210 s) calculate_angle(0, 210) = 0, but calculate_angle(210, 210) = 65535, the
value of TRIG_MAX_RATIO, one short of the full circle TRIG_MAX_ANGLE = 65536: in
on_update_proc the last phase sector ends at 65535 while the end cap is drawn up
to 65536. -/
theorem calculate_angle_end_is_not_full_circle :
    calculate_angle 0 210 = 0 ∧
    calculate_angle 210 210 = 65535 ∧
    TRIG_MAX_ANGLE = 65536 ∧
    calculate_angle 210 210 ≠ TRIG_MAX_ANGLE ∧
    (on_update_proc false true (running scenario 1700000000 0)).map (fun f => f.angle_end) =
      [9362, 28086, 65535, 65536, 364, 182] := by
  decide

/-! ## Progress marker (`on_update_proc`) -/

/-- Whenever the 32-bit product does not wrap, the angle is the exact truncated
quotient. -/
theorem calculate_angle_of_product_range (t total : Int) (h0 : 0 ≤ t)
    (hfit : 65535 * t < 2 ^ 31) (hpos : 0 < total) :
    calculate_angle t total = (65535 * t) / total := by
  unfold calculate_angle TRIG_MAX_RATIO
  rw [wrap32_of_range (65535 * t) (by omega) hfit]
  exact Int.tdiv_eq_ediv (by omega) (by omega)

/-- Half of `marker_angle_delta`, the `uint32_t` value of `DEG_TO_TRIGANGLE(2)`. -/
theorem marker_angle_delta_half : toU32 (DEG_TO_TRIGANGLE MARKER_DEGREES) / 2 = 182 := by
  decide

/-- The last radial fill of `on_update_proc` is the progress sector. -/
theorem on_update_proc_getLast (round colour : Bool) (a : ActivityWindow) :
    (on_update_proc round colour a).getLast? =
      some ⟨.GColorRed, MARKER_SIZE round, 0,
        wrap32 (toU32 (toU32 (calculate_angle a.elapsed (programme_duration a.programme)) +
          toU32 (DEG_TO_TRIGANGLE MARKER_DEGREES) / 2))⟩ := by
  simp [on_update_proc]

/-- Claim C11 as stated fails on the code. The tick that detects completion of
the scenario programme (total duration 210 s) leaves elapsed = 210, and
on_update_proc then passes 65717 as end angle of the progress sector, above
TRIG_MAX_ANGLE = 65536; at elapsed = 211 it passes 66029. In a programme of
1800 s the end angle is already 65571 at elapsed = 1796, before the end. -/
theorem progress_marker_angle_counterexample :
    (0 : Int) < programme_duration scenario ∧
    (on_tick 1700000001 (running scenario 1700000000 209)).elapsed = programme_duration scenario ∧
    (on_update_proc false true
      (on_tick 1700000001 (running scenario 1700000000 209))).getLast?.map
        (fun f => f.angle_end) = some 65717 ∧
    (on_update_proc false true (running scenario 1700000000 211)).getLast?.map
        (fun f => f.angle_end) = some 66029 ∧
    (on_update_proc false true
      (running [⟨.PROGRAMME_STATE_RUN, 1800⟩] 1700000000 1796)).getLast?.map
        (fun f => f.angle_end) = some 65571 ∧
    calculate_angle 210 210 + toU32 (DEG_TO_TRIGANGLE MARKER_DEGREES) / 2 = 65717 ∧
    ¬ (calculate_angle 210 210 + toU32 (DEG_TO_TRIGANGLE MARKER_DEGREES) / 2 ≤ TRIG_MAX_ANGLE) := by
  decide

/-- Claim C11, amended. The end angle of the progress sector is not clamped. For
every total_duration with 0 < total_duration <= 32767 and every elapsed with
0 <= elapsed <= total_duration + 1, the end angle on_update_proc passes for the
progress sector is calculate_angle(elapsed, total_duration) + 182 (182 being
marker_angle_delta / 2), starting from angle 0. It is at least 182; it lies within
[0, TRIG_MAX_ANGLE] exactly when 65535 * elapsed < 65355 * total_duration; while
elapsed <= total_duration it is at most TRIG_MAX_ANGLE + 181; and one second past
the end it is at most TRIG_MAX_ANGLE + 181 + 65535 / total_duration. -/
theorem progress_marker_end_angle (round colour : Bool) (a : ActivityWindow)
    (hpos : 0 < programme_duration a.programme)
    (hmax : programme_duration a.programme ≤ 32767)
    (h0 : 0 ≤ a.elapsed)
    (h1 : a.elapsed ≤ programme_duration a.programme + 1) :
    ∃ f : RadialFill, (on_update_proc round colour a).getLast? = some f ∧
      f.angle_start = 0 ∧
      f.angle_end = calculate_angle a.elapsed (programme_duration a.programme) + 182 ∧
      182 ≤ f.angle_end ∧
      (f.angle_end ≤ TRIG_MAX_ANGLE ↔
        65535 * a.elapsed < 65355 * programme_duration a.programme) ∧
      (a.elapsed ≤ programme_duration a.programme → f.angle_end ≤ TRIG_MAX_ANGLE + 181) ∧
      f.angle_end ≤ TRIG_MAX_ANGLE + 181 + 65535 / programme_duration a.programme := by
  have hca := calculate_angle_of_product_range a.elapsed (programme_duration a.programme)
    h0 (by omega) hpos
  have hnn : 0 ≤ (65535 * a.elapsed) / programme_duration a.programme :=
    Int.ediv_nonneg (by omega) (by omega)
  have hup : (65535 * a.elapsed) / programme_duration a.programme ≤
      65535 + 65535 / programme_duration a.programme := by
    have hle : 65535 * a.elapsed ≤ 65535 + 65535 * programme_duration a.programme := by omega
    have := Int.ediv_le_ediv hpos hle
    rw [Int.add_mul_ediv_right _ _ (by omega)] at this
    omega
  have hq : 65535 / programme_duration a.programme ≤ 65535 :=
    Int.ediv_le_self _ (by omega)
  have hin : a.elapsed ≤ programme_duration a.programme →
      (65535 * a.elapsed) / programme_duration a.programme ≤ 65535 := by
    intro hle
    have h2 : 65535 * a.elapsed ≤ 65535 * programme_duration a.programme := by omega
    have := Int.ediv_le_ediv hpos h2
    rw [Int.mul_ediv_cancel _ (by omega)] at this
    exact this
  have hiff : (65535 * a.elapsed) / programme_duration a.programme < 65355 ↔
      65535 * a.elapsed < 65355 * programme_duration a.programme :=
    Int.ediv_lt_iff_lt_mul hpos
  have hend : wrap32 (toU32 (toU32 (calculate_angle a.elapsed (programme_duration a.programme)) +
      toU32 (DEG_TO_TRIGANGLE MARKER_DEGREES) / 2)) =
      calculate_angle a.elapsed (programme_duration a.programme) + 182 := by
    rw [marker_angle_delta_half, hca]
    have e1 : toU32 ((65535 * a.elapsed) / programme_duration a.programme) =
        (65535 * a.elapsed) / programme_duration a.programme := by
      unfold toU32
      exact Int.emod_eq_of_lt hnn (by omega)
    rw [e1]
    have e2 : toU32 ((65535 * a.elapsed) / programme_duration a.programme + 182) =
        (65535 * a.elapsed) / programme_duration a.programme + 182 := by
      unfold toU32
      exact Int.emod_eq_of_lt (by omega) (by omega)
    rw [e2]
    exact wrap32_of_range _ (by omega) (by omega)
  refine ⟨_, on_update_proc_getLast round colour a, rfl, hend, ?_, ?_, ?_, ?_⟩
  · show 182 ≤ wrap32 _
    rw [hend, hca]; omega
  · show wrap32 _ ≤ TRIG_MAX_ANGLE ↔ _
    rw [hend, hca, ← hiff]
    unfold TRIG_MAX_ANGLE
    constructor <;> intro h <;> omega
  · intro hle
    show wrap32 _ ≤ TRIG_MAX_ANGLE + 181
    rw [hend, hca]
    have := hin hle
    unfold TRIG_MAX_ANGLE
    omega
  · show wrap32 _ ≤ TRIG_MAX_ANGLE + 181 + 65535 / programme_duration a.programme
    rw [hend, hca]
    unfold TRIG_MAX_ANGLE
    omega

theorem progress_marker_end_angle_witness :
    (0 : Int) < programme_duration (on_tick 1700000001 (running scenario 1700000000 209)).programme ∧
    programme_duration (on_tick 1700000001 (running scenario 1700000000 209)).programme ≤ 32767 ∧
    0 ≤ (on_tick 1700000001 (running scenario 1700000000 209)).elapsed ∧
    (on_tick 1700000001 (running scenario 1700000000 209)).elapsed ≤
      programme_duration (on_tick 1700000001 (running scenario 1700000000 209)).programme + 1 ∧
    ∃ f : RadialFill,
      (on_update_proc false true
        (on_tick 1700000001 (running scenario 1700000000 209))).getLast? = some f ∧
      f.angle_end = 65717 :=
  ⟨by decide, by decide, by decide, by decide,
    (progress_marker_end_angle false true (on_tick 1700000001 (running scenario 1700000000 209))
      (by decide) (by decide) (by decide) (by decide)).elim
      (fun f h => ⟨f, h.1, h.2.2.1.trans (by decide)⟩)⟩

end C25k
